import Mathlib

/-
Verification of the call-link record store (frontend storage layer and its
HTTP handlers).

The development shallowly embeds the Rust sources:
  * `src/frontend/src/storage.rs` — the `UpsertableItem` expression builder,
    `CallLinkState` / `CallLinkUpdate` / `CallRecord` records and their
    DynamoDB item encodings, `DynamoDb::update_call_link`,
    `DynamoDb::get_call_link` and `DynamoDb::get_call_link_and_record`;
  * `src/frontend/src/api/call_links.rs` — the `update_call_link` and
    `read_call_link` HTTP handlers and
    `verify_auth_credential_against_zkparams`.

Modelling conventions:
  * a DynamoDB attribute map (`serde_dynamo::Item`, `HashMap<String, AttributeValue>`)
    is a key-value list; the hash map's lookup is `hmLookup` (last insertion of a
    key wins, matching `HashMap::from_iter` / `collect`), and hash-map equality is
    pointwise `hmLookup` equality;
  * byte strings (`Vec<u8>`) are `List Nat`; timestamps (`SystemTime` as seconds
    since the epoch) are `Int`;
  * the store itself is represented by the single item living at key
    `(roomId, "CallLinkState")` (an `Option Item`), and DynamoDB's conditional
    `update_item` is `dynamoUpdateItem`, applying the compiled update expression
    when the condition holds and reporting a conditional-check failure otherwise;
  * I/O whose outcome is independent of the modelled state (the disambiguating
    read after a failed conditional write, credential verification) is supplied
    by oracle parameters;
  * `assert!` violations are modelled by `Option`/`none` (the builder returns
    `none` instead of panicking), and effectful handler code returns the list of
    `Effect`s it performed alongside its result.
-/

/-- A DynamoDB attribute value, restricted to the variants the embedded code
produces: strings, byte strings, booleans and numbers. -/
inductive AttributeValue where
  | S (s : String)
  | B (b : List Nat)
  | BOOL (b : Bool)
  | N (n : Int)
deriving DecidableEq, Repr

/-- A DynamoDB item / attribute bag: a list of attribute-name/value pairs.
A bag originating from a `HashMap` has no duplicate keys; bags produced by
chaining iterators may repeat keys, and `hmLookup` resolves the repetition the
way `collect::<HashMap<_,_>>()` does (the last occurrence wins). -/
abbrev Item := List (String × AttributeValue)

/-- First-match association-list lookup (the lookup of a duplicate-free map). -/
def lookupKV {α : Type} (k : String) : List (String × α) → Option α
  | [] => none
  | p :: rest => if p.1 = k then some p.2 else lookupKV k rest

/-- The lookup of the `HashMap` obtained by inserting the pairs of `l` in
order: the last binding of a key wins. -/
def hmLookup {α : Type} (l : List (String × α)) (k : String) : Option α :=
  lookupKV k l.reverse

/-- The keys of an attribute bag. -/
def keysOf {α : Type} (l : List (String × α)) : List String :=
  l.map Prod.fst

/-- `HashMap::contains_key`. -/
def containsKey {α : Type} (l : List (String × α)) (k : String) : Bool :=
  (keysOf l).any (fun s => s = k)

/-- Byte-wise (here: code-point-wise, identical on ASCII) lexicographic
comparison of strings as lists of code points, matching Rust's `Ord` on
`String`. -/
def natListLeb : List Nat → List Nat → Bool
  | [], _ => true
  | _ :: _, [] => false
  | a :: as, b :: bs => if a < b then true else if b < a then false else natListLeb as bs

/-- Rust's total order on `String`, as a Boolean test. -/
def strLeb (a b : String) : Bool :=
  natListLeb (a.data.map Char.toNat) (b.data.map Char.toNat)

/-- Rust's total order on `String`, as a proposition. -/
def StrLe (a b : String) : Prop := strLeb a b = true

instance : DecidableRel StrLe := fun a b => instDecidableEqBool (strLeb a b) true

/-- `Vec::sort` on strings: some stable sort; any sort of a list under a total
antisymmetric order produces the same result, so insertion sort is a faithful
model. -/
def sortStrings (l : List String) : List String :=
  List.insertionSort StrLe l

/-- The `UpsertableItem` wrapper from `storage.rs`: two attribute bags plus the
names of the primary-key attributes, generating "upsert"-like update
expressions. -/
structure UpsertableItem where
  partition_key : String
  sort_key : String
  update_attributes : Item
  default_attributes : Item

/-- `UpsertableItem::with_updates`. -/
def UpsertableItem.with_updates (pk sk : String) (attributes : Item) : UpsertableItem :=
  ⟨pk, sk, attributes, []⟩

/-- `UpsertableItem::with_defaults`. -/
def UpsertableItem.with_defaults (pk sk : String) (attributes : Item) : UpsertableItem :=
  ⟨pk, sk, [], attributes⟩

/-- `UpsertableItem::is_primary_key`. -/
def UpsertableItem.is_primary_key (it : UpsertableItem) (k : String) : Bool :=
  k = it.partition_key || k = it.sort_key

/-- The `#{k} = :{k}` fragment emitted for an update attribute. -/
def fmtSet (k : String) : String :=
  "#" ++ k ++ " = :" ++ k

/-- The `#{k} = if_not_exists(#{k}, :{k})` fragment emitted for a default
attribute. -/
def fmtSetIfNotExists (k : String) : String :=
  "#" ++ k ++ " = if_not_exists(#" ++ k ++ ", :" ++ k ++ ")"

/-- The unsorted list of assignment fragments produced inside
`UpsertableItem::generate_update_expression`: one unconditional assignment per
non-key update attribute, then one set-if-absent assignment per non-key default
attribute not already covered by the update bag. -/
def UpsertableItem.expressionList (it : UpsertableItem) : List String :=
  ((keysOf it.update_attributes).filter (fun k => !it.is_primary_key k)).map fmtSet
    ++ ((keysOf it.default_attributes).filter
          (fun k => !it.is_primary_key k && !containsKey it.update_attributes k)).map
        fmtSetIfNotExists

/-- `UpsertableItem::generate_update_expression`. The source `assert!`s that at
least one assignment was produced; the violated assertion (a panic) is
modelled as `none`. -/
def UpsertableItem.generate_update_expression (it : UpsertableItem) : Option String :=
  if it.expressionList.isEmpty then none
  else some ("SET " ++ String.intercalate "," (sortStrings it.expressionList))

/-- The pair sequence out of which `UpsertableItem::generate_attribute_names`
collects its `HashMap<String, String>`: `#{k} → k` for every non-key attribute
of either bag. -/
def UpsertableItem.generate_attribute_names (it : UpsertableItem) : List (String × String) :=
  ((keysOf it.update_attributes ++ keysOf it.default_attributes).filter
      (fun k => !it.is_primary_key k)).map (fun k => ("#" ++ k, k))

/-- The pair sequence out of which `UpsertableItem::into_attribute_values`
collects its `HashMap<String, AttributeValue>`: default attributes chained
before update attributes (so that update values override default values for a
shared key), keys excluded, each name prefixed with `:`. -/
def UpsertableItem.into_attribute_values (it : UpsertableItem) : List (String × AttributeValue) :=
  ((it.default_attributes ++ it.update_attributes).filter
      (fun p => !it.is_primary_key p.1)).map (fun p => (":" ++ p.1, p.2))

/-- `CallLinkRestrictions` from `storage.rs`. -/
inductive CallLinkRestrictions where
  | None
  | AdminApproval
deriving DecidableEq, Repr

/-- `CallLinkState` from `storage.rs` (one record per room). -/
structure CallLinkState where
  room_id : String
  admin_passkey : List Nat
  zkparams : List Nat
  restrictions : CallLinkRestrictions
  encrypted_name : List Nat
  revoked : Bool
  expiration : Int
deriving DecidableEq, Repr

/-- `CallLinkState::new`: a complete fresh state with no restrictions, an empty
name, not revoked, expiring 90 days after `now`. -/
def CallLinkState.new (room_id : String) (admin_passkey : List Nat) (zkparams : List Nat)
    (now : Int) : CallLinkState :=
  { room_id := room_id
    admin_passkey := admin_passkey
    zkparams := zkparams
    restrictions := CallLinkRestrictions.None
    encrypted_name := []
    revoked := false
    expiration := now + 60 * 60 * 24 * 90 }

/-- `CallLinkUpdate` from `storage.rs`: a partial patch; `none` fields are left
unchanged. -/
structure CallLinkUpdate where
  admin_passkey : List Nat
  restrictions : Option CallLinkRestrictions
  encrypted_name : Option (List Nat)
  revoked : Option Bool
deriving DecidableEq, Repr

/-- `CallRecord` from `storage.rs` (the live-call record sharing the room's
partition). -/
structure CallRecord where
  room_id : String
  era_id : String
  backend_ip : String
  backend_region : String
  creator : String
deriving DecidableEq, Repr

/-- Serialization of `CallLinkRestrictions` (serde `rename_all = "camelCase"`). -/
def CallLinkRestrictions.toStr : CallLinkRestrictions → String
  | CallLinkRestrictions.None => "none"
  | CallLinkRestrictions.AdminApproval => "adminApproval"

/-- `to_item` for `CallLinkState` (serde: camelCase field names, the
`recordType` tag, byte strings as binary values, the timestamp as an integer). -/
def CallLinkState.toItem (s : CallLinkState) : Item :=
  [("recordType", AttributeValue.S "CallLinkState"),
   ("roomId", AttributeValue.S s.room_id),
   ("adminPasskey", AttributeValue.B s.admin_passkey),
   ("zkparams", AttributeValue.B s.zkparams),
   ("restrictions", AttributeValue.S s.restrictions.toStr),
   ("encryptedName", AttributeValue.B s.encrypted_name),
   ("revoked", AttributeValue.BOOL s.revoked),
   ("expiration", AttributeValue.N s.expiration)]

/-- `to_item` for `CallLinkUpdate` (serde: camelCase, the `recordType` tag
renamed to `CallLinkState`, `skip_serializing_none` drops absent fields). -/
def CallLinkUpdate.toItem (u : CallLinkUpdate) : Item :=
  [("recordType", AttributeValue.S "CallLinkState"),
   ("adminPasskey", AttributeValue.B u.admin_passkey)]
    ++ (match u.restrictions with
        | some r => [("restrictions", AttributeValue.S r.toStr)]
        | none => [])
    ++ (match u.encrypted_name with
        | some n => [("encryptedName", AttributeValue.B n)]
        | none => [])
    ++ (match u.revoked with
        | some b => [("revoked", AttributeValue.BOOL b)]
        | none => [])

/-- Projections used by deserialization: a string-typed attribute. -/
def asS : Option AttributeValue → Option String
  | some (AttributeValue.S s) => some s
  | _ => none

/-- A binary-typed attribute. -/
def asB : Option AttributeValue → Option (List Nat)
  | some (AttributeValue.B b) => some b
  | _ => none

/-- A boolean-typed attribute. -/
def asBOOL : Option AttributeValue → Option Bool
  | some (AttributeValue.BOOL b) => some b
  | _ => none

/-- A number-typed attribute. -/
def asN : Option AttributeValue → Option Int
  | some (AttributeValue.N n) => some n
  | _ => none

/-- Deserialization of `CallLinkRestrictions`. -/
def restrictionsOfStr : String → Option CallLinkRestrictions
  | "none" => some CallLinkRestrictions.None
  | "adminApproval" => some CallLinkRestrictions.AdminApproval
  | _ => none

/-- `from_item` for `CallLinkState`: every field must be present with the right
type, otherwise deserialization fails; unknown attributes are ignored. -/
def fromItemCallLinkState (item : Item) : Option CallLinkState := do
  let room_id ← asS (lookupKV "roomId" item)
  let admin_passkey ← asB (lookupKV "adminPasskey" item)
  let zkparams ← asB (lookupKV "zkparams" item)
  let restrictions ← (asS (lookupKV "restrictions" item)).bind restrictionsOfStr
  let encrypted_name ← asB (lookupKV "encryptedName" item)
  let revoked ← asBOOL (lookupKV "revoked" item)
  let expiration ← asN (lookupKV "expiration" item)
  pure { room_id := room_id, admin_passkey := admin_passkey, zkparams := zkparams,
         restrictions := restrictions, encrypted_name := encrypted_name,
         revoked := revoked, expiration := expiration }

/-- `from_item` for `CallRecord`. -/
def fromItemCallRecord (item : Item) : Option CallRecord := do
  let room_id ← asS (lookupKV "roomId" item)
  let era_id ← asS (lookupKV "eraId" item)
  let backend_ip ← asS (lookupKV "backendIp" item)
  let backend_region ← asS (lookupKV "region" item)
  let creator ← asS (lookupKV "creator" item)
  pure { room_id := room_id, era_id := era_id, backend_ip := backend_ip,
         backend_region := backend_region, creator := creator }

/-- The condition-expression fragment language used by `update_call_link`:
attribute/placeholder equality, `attribute_not_exists`, conjunction and
disjunction. -/
inductive Cond where
  | eqAttr (attrName placeholder : String)
  | attributeNotExists (attrName : String)
  | condAnd (c₁ c₂ : Cond)
  | condOr (c₁ c₂ : Cond)

/-- DynamoDB's evaluation of a condition expression against the (possibly
absent) stored item, with the request's expression attribute values.
Equality holds only when the attribute exists and equals the bound placeholder
value; `attribute_not_exists` holds when the item is absent or lacks the
attribute. -/
def evalCond (stored : Option Item) (values : List (String × AttributeValue)) :
    Cond → Bool
  | Cond.eqAttr a ph =>
    match stored with
    | none => false
    | some item =>
      match lookupKV a item, hmLookup values ph with
      | some v, some w => v = w
      | _, _ => false
  | Cond.attributeNotExists a =>
    match stored with
    | none => true
    | some item => (lookupKV a item).isNone
  | Cond.condAnd c₁ c₂ => evalCond stored values c₁ && evalCond stored values c₂
  | Cond.condOr c₁ c₂ => evalCond stored values c₁ || evalCond stored values c₂

/-- One compiled `SET` assignment: unconditional, or only-if-absent. -/
inductive AssignMode where
  | always
  | ifNotExists

/-- The compiled meaning of the update expression generated by
`UpsertableItem::generate_update_expression`: which attribute is assigned from
which placeholder, and in which mode. Sorting the rendered fragments does not
change the meaning, so the plan keeps the generation order. -/
def UpsertableItem.assignmentPlan (it : UpsertableItem) : List (String × AssignMode) :=
  ((keysOf it.update_attributes).filter (fun k => !it.is_primary_key k)).map
      (fun k => (k, AssignMode.always))
    ++ ((keysOf it.default_attributes).filter
          (fun k => !it.is_primary_key k && !containsKey it.update_attributes k)).map
        (fun k => (k, AssignMode.ifNotExists))

/-- Set an attribute in an item (replace an existing binding or append). -/
def setAttr (item : Item) (k : String) (v : AttributeValue) : Item :=
  if containsKey item k then
    item.map (fun p => if p.1 = k then (k, v) else p)
  else item ++ [(k, v)]

/-- DynamoDB's application of the compiled `SET` assignments to the base item;
a placeholder with no bound value cannot occur in a request the store accepts. -/
def applyAssignments (base : Item) (plan : List (String × AssignMode))
    (values : List (String × AttributeValue)) : Item :=
  plan.foldl
    (fun item km =>
      match hmLookup values (":" ++ km.1) with
      | some v =>
        match km.2 with
        | AssignMode.always => setAttr item km.1 v
        | AssignMode.ifNotExists =>
          if (lookupKV km.1 item).isSome then item else setAttr item km.1 v
      | none => item)
    base

/-- DynamoDB `update_item` with a condition expression and
`ReturnValue::AllNew`: if the condition fails the write is refused
(`ConditionalCheckFailedException`, here `none`); otherwise the assignments are
applied to the existing item — or to a fresh item holding only the key
attributes — and the resulting new image is returned. -/
def dynamoUpdateItem (stored : Option Item) (keyAttrs : Item)
    (plan : List (String × AssignMode)) (values : List (String × AttributeValue))
    (cond : Cond) : Option Item :=
  if evalCond stored values cond then
    some (applyAssignments (stored.getD keyAttrs) plan values)
  else none

/-- `CallLinkUpdateError` from `storage.rs` (the `anyhow` diagnostic carried by
`UnexpectedError` is dropped). -/
inductive CallLinkUpdateError where
  | RoomDoesNotExist
  | AdminPasskeyDidNotMatch
  | UnexpectedError
deriving DecidableEq, Repr

/-- The condition expression `update_call_link` attaches in creation mode
(`zkparams_for_creation = Some(p)`):
`(adminPasskey = :adminPasskey OR attribute_not_exists(adminPasskey)) AND
 (zkparams = :zkparams OR attribute_not_exists(zkparams))`. -/
def creationCondition : Cond :=
  Cond.condAnd
    (Cond.condOr (Cond.eqAttr "adminPasskey" ":adminPasskey")
      (Cond.attributeNotExists "adminPasskey"))
    (Cond.condOr (Cond.eqAttr "zkparams" ":zkparams")
      (Cond.attributeNotExists "zkparams"))

/-- The condition expression `update_call_link` attaches in update mode
(`zkparams_for_creation = None`): `adminPasskey = :adminPasskey`. -/
def updateModeCondition : Cond :=
  Cond.eqAttr "adminPasskey" ":adminPasskey"

/-- The condition `update_call_link` selects for the given mode. -/
def conditionFor (zkparams_for_creation : Option (List Nat)) : Cond :=
  match zkparams_for_creation with
  | some _ => creationCondition
  | none => updateModeCondition

/-- The `UpsertableItem` built by `update_call_link`: the serialized
`CallLinkUpdate` as the update bag and — in creation mode only — a complete
fresh `CallLinkState` as the default bag. -/
def buildUpsertItem (room_id : String) (new_attributes : CallLinkUpdate)
    (zkparams_for_creation : Option (List Nat)) (now : Int) : UpsertableItem :=
  let base := UpsertableItem.with_updates "roomId" "recordType" new_attributes.toItem
  match zkparams_for_creation with
  | some zk =>
    { base with
      default_attributes :=
        (CallLinkState.new room_id new_attributes.admin_passkey zk now).toItem }
  | none => base

/-- The primary key `update_call_link` addresses. -/
def callLinkKeyAttrs (room_id : String) : Item :=
  [("roomId", AttributeValue.S room_id),
   ("recordType", AttributeValue.S "CallLinkState")]

/-- `DynamoDb::update_call_link` against the store row `stored` (the item at
`(room_id, "CallLinkState")` when the conditional write executes).
`readAfterFailure` is the store's answer to the disambiguating
`get_call_link` issued after a conditional-check failure in update mode: a
fault, no record, or a record (the race window between write and read is
thereby captured: the read's answer is an independent oracle). `now` is the
current time (`SystemTime::now()`), used for the creation expiration. -/
def update_call_link (room_id : String) (new_attributes : CallLinkUpdate)
    (zkparams_for_creation : Option (List Nat)) (now : Int)
    (stored : Option Item)
    (readAfterFailure : Except Unit (Option CallLinkState)) :
    Except CallLinkUpdateError CallLinkState :=
  let call_as_item := buildUpsertItem room_id new_attributes zkparams_for_creation now
  let must_exist := zkparams_for_creation.isNone
  let condition := conditionFor zkparams_for_creation
  match dynamoUpdateItem stored (callLinkKeyAttrs room_id) call_as_item.assignmentPlan
      call_as_item.into_attribute_values condition with
  | some newImage =>
    match fromItemCallLinkState newImage with
    | some state => Except.ok state
    | none => Except.error CallLinkUpdateError.UnexpectedError
  | none =>
    if !must_exist then
      Except.error CallLinkUpdateError.AdminPasskeyDidNotMatch
    else
      match readAfterFailure with
      | Except.ok (some _) => Except.error CallLinkUpdateError.AdminPasskeyDidNotMatch
      | Except.ok none => Except.error CallLinkUpdateError.RoomDoesNotExist
      | Except.error _ => Except.error CallLinkUpdateError.UnexpectedError

/-- The record-type discriminant of a returned row, when it is present and
string-valued (the `if let Some(AttributeValue::S(record_type))` pattern in
`get_call_link_and_record`). -/
def recordDisc (item : Item) : Option String :=
  match lookupKV "recordType" item with
  | some (AttributeValue.S s) => some s
  | _ => none

/-- The demultiplexing loop of `DynamoDb::get_call_link_and_record`, with the
two result slots and the log of emitted warnings as accumulators. A matched
row that fails to deserialize aborts the whole call with an error. -/
def demuxRows : List Item → Option CallLinkState → Option CallRecord → List String →
    Except String ((Option CallLinkState × Option CallRecord) × List String)
  | [], link_state, call_record, logs => Except.ok ((link_state, call_record), logs)
  | item :: rest, link_state, call_record, logs =>
    match recordDisc item with
    | some s =>
      if s = "ActiveCall" then
        match fromItemCallRecord item with
        | some record => demuxRows rest link_state (some record) logs
        | none => Except.error "failed to convert item to CallRecord"
      else if s = "CallLinkState" then
        match fromItemCallLinkState item with
        | some state => demuxRows rest (some state) call_record logs
        | none => Except.error "failed to convert item to CallLinkState"
      else demuxRows rest link_state call_record (logs ++ ["unexpected record_type: " ++ s])
    | none => demuxRows rest link_state call_record logs

/-- `DynamoDb::get_call_link_and_record`, applied to the rows returned by the
single consistent range read over the room's partition. Alongside the result
pair it returns the warnings logged for unrecognized discriminants. -/
def get_call_link_and_record (items : List Item) :
    Except String ((Option CallLinkState × Option CallRecord) × List String) :=
  demuxRows items none none []

/-- The call-link state a row contributes to the link slot: rows whose string
discriminant is `CallLinkState`, deserialized. -/
def linkRowOf (item : Item) : Option CallLinkState :=
  if recordDisc item = some "CallLinkState" then fromItemCallLinkState item else none

/-- The call record a row contributes to the record slot: rows whose string
discriminant is `ActiveCall`, deserialized. -/
def recRowOf (item : Item) : Option CallRecord :=
  if recordDisc item = some "ActiveCall" then fromItemCallRecord item else none

/-- The warning a row contributes to the log: string discriminants other than
the two recognized ones. -/
def logOf (item : Item) : Option String :=
  match recordDisc item with
  | some s =>
    if s = "ActiveCall" ∨ s = "CallLinkState" then none
    else some ("unexpected record_type: " ++ s)
  | none => none

/-- The last element of `xs` if any, else the default `d`: the value of a
result slot overwritten once per matching row, starting from `d`. -/
def olast {α : Type} (xs : List α) (d : Option α) : Option α :=
  match xs.getLast? with
  | some v => some v
  | none => d

/-- A row the demultiplexer can process without a deserialization error: if
its discriminant matches a recognized record kind, that record deserializes. -/
def goodRow (item : Item) : Prop :=
  (recordDisc item = some "CallLinkState" → (fromItemCallLinkState item).isSome = true)
  ∧ (recordDisc item = some "ActiveCall" → (fromItemCallRecord item).isSome = true)

instance : DecidablePred goodRow := fun item => by
  unfold goodRow
  infer_instance

/-- HTTP status codes used by the handlers in `api/call_links.rs`. -/
def OK : Nat := 200

/-- 400. -/
def BAD_REQUEST : Nat := 400

/-- 401. -/
def UNAUTHORIZED : Nat := 401

/-- 403. -/
def FORBIDDEN : Nat := 403

/-- 404. -/
def NOT_FOUND : Nat := 404

/-- 409. -/
def CONFLICT : Nat := 409

/-- 413. -/
def PAYLOAD_TOO_LARGE : Nat := 413

/-- 500. -/
def INTERNAL_SERVER_ERROR : Nat := 500

/-- The request body of the PUT handler (`api::call_links::CallLinkUpdate`):
unlike the storage-level patch it may carry zkparams. -/
structure ApiCallLinkUpdate where
  admin_passkey : List Nat
  zkparams : Option (List Nat)
  restrictions : Option CallLinkRestrictions
  name : Option (List Nat)
  revoked : Option Bool
deriving DecidableEq, Repr

/-- `From<CallLinkUpdate> for storage::CallLinkUpdate`: the zkparams field is
dropped, `name` becomes `encrypted_name`. -/
def ApiCallLinkUpdate.toStorage (u : ApiCallLinkUpdate) : CallLinkUpdate :=
  { admin_passkey := u.admin_passkey
    restrictions := u.restrictions
    encrypted_name := u.name
    revoked := u.revoked }

/-- The response body (`api::call_links::CallLinkState`). -/
structure ApiCallLinkStateBody where
  restrictions : CallLinkRestrictions
  name : List Nat
  revoked : Bool
  expiration : Int
deriving DecidableEq, Repr

/-- The response body built from a storage `CallLinkState`. -/
def bodyOfState (state : CallLinkState) : ApiCallLinkStateBody :=
  { restrictions := state.restrictions
    name := state.encrypted_name
    revoked := state.revoked
    expiration := state.expiration }

/-- The externally observable actions a handler performs, in order: store
reads, credential verifications (tagged with the zkparams bytes the
presentation is checked against), and the storage-level conditional update. -/
inductive Effect where
  | getCallLink (room : String)
  | verifyCreateCredential (room_id_bytes : List Nat) (zkparams : List Nat)
  | verifyAuthCredential (zkparams : List Nat)
  | storageUpdateCallLink (room : String) (upd : CallLinkUpdate)
      (zkparams_for_creation : Option (List Nat))
deriving DecidableEq, Repr

/-- The numeric value of one hexadecimal digit. -/
def hexDigit (c : Char) : Option Nat :=
  if '0' ≤ c ∧ c ≤ '9' then some (c.toNat - '0'.toNat)
  else if 'a' ≤ c ∧ c ≤ 'f' then some (c.toNat - 'a'.toNat + 10)
  else if 'A' ≤ c ∧ c ≤ 'F' then some (c.toNat - 'A'.toNat + 10)
  else none

/-- `hex::decode` on a character list: pairs of hex digits, even length
required. -/
def hexDecodeChars : List Char → Option (List Nat)
  | [] => some []
  | [_] => none
  | a :: b :: rest => do
    let hi ← hexDigit a
    let lo ← hexDigit b
    let tail ← hexDecodeChars rest
    pure ((hi * 16 + lo) :: tail)

/-- `hex::decode`. -/
def hexDecode (s : String) : Option (List Nat) :=
  hexDecodeChars s.data

/-- `verify_auth_credential_against_zkparams` from `api/call_links.rs`,
relative to two oracles: `storedZkDeserOk` tells whether
`bincode::deserialize` accepts the stored zkparams bytes, and `authCredOk`
tells whether the presented credential verifies against the parameters
deserialized from those bytes. A corrupt stored value is a 500; a failed
verification is a 403. -/
def verify_auth_credential_against_zkparams
    (storedZkDeserOk : List Nat → Bool) (authCredOk : List Nat → Bool)
    (existing_call_link : CallLinkState) : Except Nat Unit :=
  if !storedZkDeserOk existing_call_link.zkparams then
    Except.error INTERNAL_SERVER_ERROR
  else if !authCredOk existing_call_link.zkparams then
    Except.error FORBIDDEN
  else Except.ok ()

/-- The `read_call_link` handler (GET): fetch the link state, then verify the
anonymous credential against its stored zkparams. The effect trace records
the store read and any credential verification actually performed
(verification happens only after `bincode::deserialize` of the stored
zkparams succeeded). -/
def read_call_link (room_id : String)
    (storedZkDeserOk : List Nat → Bool) (authCredOk : List Nat → Bool)
    (getLinkResult : Except Unit (Option CallLinkState)) :
    Except Nat ApiCallLinkStateBody × List Effect :=
  match getLinkResult with
  | Except.error _ => (Except.error INTERNAL_SERVER_ERROR, [Effect.getCallLink room_id])
  | Except.ok none => (Except.error NOT_FOUND, [Effect.getCallLink room_id])
  | Except.ok (some state) =>
    if !storedZkDeserOk state.zkparams then
      (Except.error INTERNAL_SERVER_ERROR, [Effect.getCallLink room_id])
    else if !authCredOk state.zkparams then
      (Except.error FORBIDDEN,
       [Effect.getCallLink room_id, Effect.verifyAuthCredential state.zkparams])
    else
      (Except.ok (bodyOfState state),
       [Effect.getCallLink room_id, Effect.verifyAuthCredential state.zkparams])

/-- Mapping of the storage result at the end of the PUT handler:
success is the serialized state; `AdminPasskeyDidNotMatch` is 409 for the
creation path and 403 otherwise; `RoomDoesNotExist` and `UnexpectedError` are
500. -/
def mapStorageResult (has_create_credential : Bool)
    (storageResult : Except CallLinkUpdateError CallLinkState) :
    Except Nat ApiCallLinkStateBody :=
  match storageResult with
  | Except.ok state => Except.ok (bodyOfState state)
  | Except.error CallLinkUpdateError.AdminPasskeyDidNotMatch =>
    if has_create_credential then Except.error CONFLICT else Except.error FORBIDDEN
  | Except.error CallLinkUpdateError.RoomDoesNotExist =>
    Except.error INTERNAL_SERVER_ERROR
  | Except.error CallLinkUpdateError.UnexpectedError =>
    Except.error INTERNAL_SERVER_ERROR

/-- The `update_call_link` handler (PUT). Oracles:
`zkCreateDeserOk params` — `bincode` (fixint) deserialization of the
caller-supplied zkparams succeeds; `createCredOk room_id_bytes params` — the
creation credential verifies against the room id and those caller-supplied
parameters; `storedZkDeserOk` / `authCredOk` — as in
`verify_auth_credential_against_zkparams`; `getLinkResult` — the store's
answer to the update path's existence read; `storageResult` — the outcome of
the storage-level `update_call_link` call, if one is made. -/
def api_update_call_link (room_id : String)
    (create_credential_present auth_credential_present : Bool)
    (update : ApiCallLinkUpdate)
    (zkCreateDeserOk : List Nat → Bool)
    (createCredOk : List Nat → List Nat → Bool)
    (storedZkDeserOk : List Nat → Bool) (authCredOk : List Nat → Bool)
    (getLinkResult : Except Unit (Option CallLinkState))
    (storageResult : Except CallLinkUpdateError CallLinkState) :
    Except Nat ApiCallLinkStateBody × List Effect :=
  match hexDecode room_id with
  | none => (Except.error BAD_REQUEST, [])
  | some room_id_bytes =>
    if update.admin_passkey.length > 256 then (Except.error PAYLOAD_TOO_LARGE, [])
    else if (match update.name with
             | some new_name => decide (new_name.length > 256 + 32)
             | none => false) = true then (Except.error PAYLOAD_TOO_LARGE, [])
    else if create_credential_present then
      -- Creation path: take the zkparams out of the payload and verify the
      -- creation credential against them (we are establishing those params).
      let zkparams_for_create := update.zkparams
      let update' := { update with zkparams := none }
      match zkparams_for_create with
      | none => (Except.error BAD_REQUEST, [])
      | some params =>
        if !zkCreateDeserOk params then (Except.error BAD_REQUEST, [])
        else if !createCredOk room_id_bytes params then
          (Except.error UNAUTHORIZED, [Effect.verifyCreateCredential room_id_bytes params])
        else
          (mapStorageResult true storageResult,
           [Effect.verifyCreateCredential room_id_bytes params,
            Effect.storageUpdateCallLink room_id update'.toStorage (some params)])
    else if auth_credential_present then
      -- Update path: zkparams may not be supplied; load the existing state and
      -- verify the anonymous credential against its stored zkparams.
      if update.zkparams.isSome then (Except.error BAD_REQUEST, [])
      else
        match getLinkResult with
        | Except.error _ =>
          (Except.error INTERNAL_SERVER_ERROR, [Effect.getCallLink room_id])
        | Except.ok none => (Except.error UNAUTHORIZED, [Effect.getCallLink room_id])
        | Except.ok (some existing_call_link) =>
          if !storedZkDeserOk existing_call_link.zkparams then
            (Except.error INTERNAL_SERVER_ERROR, [Effect.getCallLink room_id])
          else if !authCredOk existing_call_link.zkparams then
            (Except.error FORBIDDEN,
             [Effect.getCallLink room_id,
              Effect.verifyAuthCredential existing_call_link.zkparams])
          else
            (mapStorageResult false storageResult,
             [Effect.getCallLink room_id,
              Effect.verifyAuthCredential existing_call_link.zkparams,
              Effect.storageUpdateCallLink room_id update.toStorage none])
    else (Except.error UNAUTHORIZED, [])

/-! Association-list and hash-map lemmas. -/

theorem lookupKV_cons {α : Type} (k : String) (p : String × α) (l : List (String × α)) :
    lookupKV k (p :: l) = if p.1 = k then some p.2 else lookupKV k l := rfl

theorem lookupKV_append_some {α : Type} {k : String} {l₁ l₂ : List (String × α)} {v : α}
    (h : lookupKV k l₁ = some v) : lookupKV k (l₁ ++ l₂) = some v := by
  induction l₁ with
  | nil => simp [lookupKV] at h
  | cons p rest ih =>
    by_cases hp : p.1 = k
    · rw [lookupKV_cons, if_pos hp] at h
      rw [List.cons_append, lookupKV_cons, if_pos hp]
      exact h
    · rw [lookupKV_cons, if_neg hp] at h
      rw [List.cons_append, lookupKV_cons, if_neg hp]
      exact ih h

theorem lookupKV_append_none {α : Type} {k : String} {l₁ l₂ : List (String × α)}
    (h : lookupKV k l₁ = none) : lookupKV k (l₁ ++ l₂) = lookupKV k l₂ := by
  induction l₁ with
  | nil => simp
  | cons p rest ih =>
    by_cases hp : p.1 = k
    · rw [lookupKV_cons, if_pos hp] at h
      cases h
    · rw [lookupKV_cons, if_neg hp] at h
      rw [List.cons_append, lookupKV_cons, if_neg hp]
      exact ih h

theorem keysOf_cons {α : Type} (p : String × α) (l : List (String × α)) :
    keysOf (p :: l) = p.1 :: keysOf l := rfl

theorem keysOf_append {α : Type} (l₁ l₂ : List (String × α)) :
    keysOf (l₁ ++ l₂) = keysOf l₁ ++ keysOf l₂ := by
  simp [keysOf]

theorem keysOf_reverse {α : Type} (l : List (String × α)) :
    keysOf l.reverse = (keysOf l).reverse := by
  simp [keysOf]

theorem mem_keysOf {α : Type} {k : String} {l : List (String × α)} :
    k ∈ keysOf l ↔ ∃ v, (k, v) ∈ l := by
  constructor
  · intro h
    rcases List.mem_map.mp h with ⟨p, hp, he⟩
    exact ⟨p.2, by cases p; cases he; exact hp⟩
  · rintro ⟨v, hv⟩
    exact List.mem_map.mpr ⟨(k, v), hv, rfl⟩

theorem lookupKV_eq_none {α : Type} {k : String} {l : List (String × α)} :
    lookupKV k l = none ↔ k ∉ keysOf l := by
  induction l with
  | nil => simp [lookupKV, keysOf]
  | cons p rest ih =>
    by_cases hp : p.1 = k
    · subst hp
      simp [lookupKV_cons, keysOf_cons]
    · simp [lookupKV_cons, hp, keysOf_cons, ih, Ne.symm hp]

theorem mem_of_lookupKV {α : Type} {k : String} {v : α} {l : List (String × α)}
    (h : lookupKV k l = some v) : (k, v) ∈ l := by
  induction l with
  | nil => simp [lookupKV] at h
  | cons p rest ih =>
    by_cases hp : p.1 = k
    · rw [lookupKV_cons, if_pos hp] at h
      cases p
      cases h
      cases hp
      exact List.mem_cons_self _ _
    · rw [lookupKV_cons, if_neg hp] at h
      exact List.mem_cons_of_mem _ (ih h)

theorem lookupKV_of_mem_nodup {α : Type} {k : String} {v : α} {l : List (String × α)}
    (hn : (keysOf l).Nodup) (hm : (k, v) ∈ l) : lookupKV k l = some v := by
  induction l with
  | nil => cases hm
  | cons p rest ih =>
    rcases List.mem_cons.mp hm with he | hm'
    · rw [← he, lookupKV_cons, if_pos rfl]
    · have hk : k ∈ keysOf rest := mem_keysOf.mpr ⟨v, hm'⟩
      have hp : p.1 ≠ k := by
        intro he
        rw [keysOf_cons] at hn
        exact (List.nodup_cons.mp hn).1 (he ▸ hk)
      rw [lookupKV_cons, if_neg hp]
      exact ih (List.nodup_cons.mp (keysOf_cons p rest ▸ hn)).2 hm'

theorem lookupKV_eq_of_perm {α : Type} {l₁ l₂ : List (String × α)} (hp : l₁.Perm l₂)
    (hn : (keysOf l₁).Nodup) (k : String) : lookupKV k l₁ = lookupKV k l₂ := by
  have hkp : (keysOf l₁).Perm (keysOf l₂) := hp.map Prod.fst
  have hn₂ : (keysOf l₂).Nodup := hkp.nodup hn
  cases h : lookupKV k l₁ with
  | none =>
    have : k ∉ keysOf l₂ := fun hk => (lookupKV_eq_none.mp h) (hkp.mem_iff.mpr hk)
    exact (lookupKV_eq_none.mpr this).symm
  | some v =>
    exact (lookupKV_of_mem_nodup hn₂ (hp.subset (mem_of_lookupKV h))).symm

theorem hmLookup_eq_none {α : Type} {l : List (String × α)} {k : String} :
    hmLookup l k = none ↔ k ∉ keysOf l := by
  unfold hmLookup
  rw [lookupKV_eq_none, keysOf_reverse, List.mem_reverse]

theorem hmLookup_of_mem_nodup {α : Type} {k : String} {v : α} {l : List (String × α)}
    (hn : (keysOf l).Nodup) (hm : (k, v) ∈ l) : hmLookup l k = some v :=
  lookupKV_of_mem_nodup (by rw [keysOf_reverse]; exact List.nodup_reverse.mpr hn)
    (List.mem_reverse.mpr hm)

theorem hmLookup_eq_of_perm {α : Type} {l₁ l₂ : List (String × α)} (hp : l₁.Perm l₂)
    (hn : (keysOf l₁).Nodup) (k : String) : hmLookup l₁ k = hmLookup l₂ k :=
  lookupKV_eq_of_perm (l₁.reverse_perm.trans (hp.trans l₂.reverse_perm.symm))
    (by rw [keysOf_reverse]; exact List.nodup_reverse.mpr hn) k

theorem hmLookup_append_some {α : Type} {l₁ l₂ : List (String × α)} {k : String} {v : α}
    (h : hmLookup l₂ k = some v) : hmLookup (l₁ ++ l₂) k = some v := by
  unfold hmLookup at *
  rw [List.reverse_append]
  exact lookupKV_append_some h

theorem hmLookup_append_none {α : Type} {l₁ l₂ : List (String × α)} {k : String}
    (h : hmLookup l₂ k = none) : hmLookup (l₁ ++ l₂) k = hmLookup l₁ k := by
  unfold hmLookup at *
  rw [List.reverse_append]
  exact lookupKV_append_none h

/-! The string order used by the sort: totality, transitivity, antisymmetry. -/

theorem natListLeb_total : ∀ a b : List Nat, natListLeb a b = true ∨ natListLeb b a = true
  | [], _ => Or.inl rfl
  | _ :: _, [] => Or.inr rfl
  | a :: as, b :: bs => by
    rcases Nat.lt_trichotomy a b with h | h | h
    · left
      simp [natListLeb, h]
    · subst h
      rcases natListLeb_total as bs with ih | ih <;>
        simp [natListLeb, ih, Nat.lt_irrefl]
    · right
      simp [natListLeb, h]

theorem natListLeb_trans : ∀ a b c : List Nat,
    natListLeb a b = true → natListLeb b c = true → natListLeb a c = true
  | [], _, _, _, _ => rfl
  | _ :: _, [], _, h, _ => by cases h
  | _ :: _, _ :: _, [], _, h => by cases h
  | a :: as, b :: bs, c :: cs, hab, hbc => by
    simp only [natListLeb] at *
    rcases Nat.lt_trichotomy a b with h₁ | h₁ | h₁
    · rcases Nat.lt_trichotomy b c with h₂ | h₂ | h₂
      · simp [Nat.lt_trans h₁ h₂]
      · subst h₂
        simp [h₁]
      · rw [if_neg (Nat.lt_asymm h₂), if_pos h₂] at hbc
        cases hbc
    · subst h₁
      rcases Nat.lt_trichotomy a c with h₂ | h₂ | h₂
      · simp [h₂]
      · subst h₂
        simp only [Nat.lt_irrefl, if_false] at hab hbc ⊢
        exact natListLeb_trans as bs cs hab hbc
      · rw [if_neg (Nat.lt_asymm h₂), if_pos h₂] at hbc
        cases hbc
    · rw [if_neg (Nat.lt_asymm h₁), if_pos h₁] at hab
      cases hab

theorem natListLeb_antisymm : ∀ a b : List Nat,
    natListLeb a b = true → natListLeb b a = true → a = b
  | [], [], _, _ => rfl
  | [], _ :: _, _, h => by cases h
  | _ :: _, [], h, _ => by cases h
  | a :: as, b :: bs, hab, hba => by
    simp only [natListLeb] at hab hba
    rcases Nat.lt_trichotomy a b with h | h | h
    · rw [if_neg (Nat.lt_asymm h), if_pos h] at hba
      cases hba
    · subst h
      rw [if_neg (Nat.lt_irrefl a), if_neg (Nat.lt_irrefl a)] at hab hba
      rw [natListLeb_antisymm as bs hab hba]
    · rw [if_neg (Nat.lt_asymm h), if_pos h] at hab
      cases hab

theorem char_toNat_injective : Function.Injective Char.toNat := by
  intro a b h
  exact Char.eq_of_val_eq (UInt32.ext h)

theorem string_data_injective : Function.Injective String.data := by
  intro a b h
  cases a
  cases b
  simp_all

instance : IsTotal String StrLe :=
  ⟨fun a b => natListLeb_total (a.data.map Char.toNat) (b.data.map Char.toNat)⟩

instance : IsTrans String StrLe :=
  ⟨fun _ _ _ hab hbc => natListLeb_trans _ _ _ hab hbc⟩

instance : IsAntisymm String StrLe :=
  ⟨fun _ _ hab hba =>
    string_data_injective
      (List.map_injective_iff.mpr char_toNat_injective (natListLeb_antisymm _ _ hab hba))⟩

theorem sortStrings_perm (l : List String) : (sortStrings l).Perm l :=
  List.perm_insertionSort StrLe l

theorem sortStrings_sorted (l : List String) : List.Sorted StrLe (sortStrings l) :=
  List.sorted_insertionSort StrLe l

/-- Any two stable-sort results of permuted inputs agree: sortedness plus
permutation determines the output under a total antisymmetric order. -/
theorem sortStrings_eq_of_perm {l₁ l₂ : List String} (h : l₁.Perm l₂) :
    sortStrings l₁ = sortStrings l₂ :=
  List.eq_of_perm_of_sorted
    ((sortStrings_perm l₁).trans (h.trans (sortStrings_perm l₂).symm))
    (sortStrings_sorted l₁) (sortStrings_sorted l₂)

/-! String-building facts used to reason about placeholder names. -/

theorem string_append_left_cancel {p a b : String} (h : p ++ a = p ++ b) : a = b := by
  apply string_data_injective
  have hd : p.data ++ a.data = p.data ++ b.data := congrArg String.data h
  exact List.append_cancel_left hd

theorem containsKey_iff {α : Type} {l : List (String × α)} {k : String} :
    containsKey l k = true ↔ k ∈ keysOf l := by
  unfold containsKey
  rw [List.any_eq_true]
  constructor
  · rintro ⟨x, hx, he⟩
    exact (of_decide_eq_true he) ▸ hx
  · intro h
    exact ⟨k, h, by simp⟩

theorem containsKey_eq_of_perm {α : Type} {l₁ l₂ : List (String × α)} (h : l₁.Perm l₂)
    (k : String) : containsKey l₁ k = containsKey l₂ k := by
  rw [Bool.eq_iff_iff, containsKey_iff, containsKey_iff]
  exact (h.map Prod.fst).mem_iff

theorem perm_isEmpty_eq {α : Type} {l₁ l₂ : List α} (h : l₁.Perm l₂) :
    l₁.isEmpty = l₂.isEmpty := by
  cases l₁ with
  | nil => rw [(List.Perm.nil_eq h).symm]
  | cons a t =>
    cases l₂ with
    | nil => exact absurd (List.Perm.nil_eq h.symm) (by simp)
    | cons b u => rfl

theorem hmLookup_append_congr {α : Type} {a₁ a₂ b₁ b₂ : List (String × α)}
    (ha : ∀ k, hmLookup a₁ k = hmLookup a₂ k) (hb : ∀ k, hmLookup b₁ k = hmLookup b₂ k)
    (k : String) : hmLookup (a₁ ++ b₁) k = hmLookup (a₂ ++ b₂) k := by
  cases h : hmLookup b₁ k with
  | none =>
    rw [hmLookup_append_none h, hmLookup_append_none ((hb k).symm.trans h)]
    exact ha k
  | some v =>
    rw [hmLookup_append_some h, hmLookup_append_some ((hb k).symm.trans h)]

/-- Injectivity of placeholder prefixing: `#a = #b` (or `:a = :b`) forces
`a = b`. -/
theorem prefix_append_inj {p a b : String} (h : p ++ a = p ++ b) : a = b :=
  string_append_left_cancel h

/-! ### Claim C6 — upserts with nothing but key attributes are rejected -/

/-- C6: if, after excluding the partition-key and sort-key attributes, no
attribute remains in either bag, `generate_update_expression` hits its
`assert!` (modelled as `none`): the upsert is rejected before reaching the
store rather than producing an expression. -/
theorem upsert_no_op_rejected (it : UpsertableItem)
    (hu : ∀ k ∈ keysOf it.update_attributes, it.is_primary_key k = true)
    (hd : ∀ k ∈ keysOf it.default_attributes, it.is_primary_key k = true) :
    it.generate_update_expression = none := by
  have h₁ : (keysOf it.update_attributes).filter (fun k => !it.is_primary_key k) = [] := by
    rw [List.filter_eq_nil_iff]
    intro k hk
    simp [hu k hk]
  have h₂ : (keysOf it.default_attributes).filter
      (fun k => !it.is_primary_key k && !containsKey it.update_attributes k) = [] := by
    rw [List.filter_eq_nil_iff]
    intro k hk
    simp [hd k hk]
  unfold UpsertableItem.generate_update_expression UpsertableItem.expressionList
  rw [h₁, h₂]
  simp

/-- Witness for C6: a bag pair holding only the two key attributes is
rejected. -/
theorem upsert_no_op_rejected_witness :
    (UpsertableItem.mk "partitionKey" "sortKey"
        [("partitionKey", AttributeValue.S "p")]
        [("sortKey", AttributeValue.S "s")]).generate_update_expression = none :=
  upsert_no_op_rejected _ (by decide) (by decide)

theorem keysOf_tag_map (l : List String) (f : String → String) :
    keysOf (l.map (fun k => (f k, k))) = l.map f := by
  simp only [keysOf, List.map_map]
  rfl

theorem nodup_tag_keys {l : List String} (hl : l.Nodup) :
    (keysOf (l.map (fun k => ("#" ++ k, k)))).Nodup := by
  rw [keysOf_tag_map]
  exact hl.map (fun a b h => prefix_append_inj h)

theorem keysOf_value_map {α : Type} (l : List (String × α)) :
    keysOf (l.map (fun p => (":" ++ p.1, p.2))) = (keysOf l).map (fun k => ":" ++ k) := by
  simp only [keysOf, List.map_map]
  rfl

theorem nodup_value_keys {α : Type} {l : List (String × α)} (hl : (keysOf l).Nodup)
    (q : String × α → Bool) :
    (keysOf ((l.filter q).map (fun p => (":" ++ p.1, p.2)))).Nodup := by
  rw [keysOf_value_map]
  have hsub : List.Sublist (keysOf (l.filter q)) (keysOf l) := (l.filter_sublist).map Prod.fst
  exact (hl.sublist hsub).map (fun a b h => prefix_append_inj h)

/-! ### Claim C5 — determinism of the Upsert Expression Builder -/

/-- C5: two runs of the builder on attribute bags holding the same key-value
pairs in different iteration orders produce byte-identical update-expression
strings (the assignments are sorted by name) and equal name-placeholder and
value-placeholder hash maps (pointwise-equal lookups). -/
theorem upsert_builder_deterministic (it₁ it₂ : UpsertableItem)
    (hpk : it₁.partition_key = it₂.partition_key)
    (hsk : it₁.sort_key = it₂.sort_key)
    (hu : it₁.update_attributes.Perm it₂.update_attributes)
    (hd : it₁.default_attributes.Perm it₂.default_attributes)
    (hnu : (keysOf it₁.update_attributes).Nodup)
    (hnd : (keysOf it₁.default_attributes).Nodup) :
    it₁.generate_update_expression = it₂.generate_update_expression
    ∧ (∀ k, hmLookup it₁.generate_attribute_names k = hmLookup it₂.generate_attribute_names k)
    ∧ (∀ k, hmLookup it₁.into_attribute_values k = hmLookup it₂.into_attribute_values k) := by
  have hprim : it₁.is_primary_key = it₂.is_primary_key := by
    funext k
    unfold UpsertableItem.is_primary_key
    rw [hpk, hsk]
  have hcont : containsKey it₁.update_attributes = containsKey it₂.update_attributes :=
    funext (containsKey_eq_of_perm hu)
  have hku : (keysOf it₁.update_attributes).Perm (keysOf it₂.update_attributes) :=
    hu.map Prod.fst
  have hkd : (keysOf it₁.default_attributes).Perm (keysOf it₂.default_attributes) :=
    hd.map Prod.fst
  refine ⟨?_, ?_, ?_⟩
  · have hperm : it₁.expressionList.Perm it₂.expressionList := by
      unfold UpsertableItem.expressionList
      rw [← hprim, ← hcont]
      exact ((hku.filter _).map _).append ((hkd.filter _).map _)
    unfold UpsertableItem.generate_update_expression
    rw [sortStrings_eq_of_perm hperm, perm_isEmpty_eq hperm]
  · intro k
    have e₁ : it₁.generate_attribute_names
        = ((keysOf it₁.update_attributes).filter (fun k => !it₁.is_primary_key k)).map
            (fun k => ("#" ++ k, k))
          ++ ((keysOf it₁.default_attributes).filter (fun k => !it₁.is_primary_key k)).map
            (fun k => ("#" ++ k, k)) := by
      unfold UpsertableItem.generate_attribute_names
      rw [List.filter_append, List.map_append]
    have e₂ : it₂.generate_attribute_names
        = ((keysOf it₂.update_attributes).filter (fun k => !it₂.is_primary_key k)).map
            (fun k => ("#" ++ k, k))
          ++ ((keysOf it₂.default_attributes).filter (fun k => !it₂.is_primary_key k)).map
            (fun k => ("#" ++ k, k)) := by
      unfold UpsertableItem.generate_attribute_names
      rw [List.filter_append, List.map_append]
    rw [e₁, e₂, ← hprim]
    refine hmLookup_append_congr (fun k' => ?_) (fun k' => ?_) k
    · exact hmLookup_eq_of_perm ((hku.filter _).map _) (nodup_tag_keys (hnu.filter _)) k'
    · exact hmLookup_eq_of_perm ((hkd.filter _).map _) (nodup_tag_keys (hnd.filter _)) k'
  · intro k
    have e₁ : it₁.into_attribute_values
        = (it₁.default_attributes.filter (fun p => !it₁.is_primary_key p.1)).map
            (fun p => (":" ++ p.1, p.2))
          ++ (it₁.update_attributes.filter (fun p => !it₁.is_primary_key p.1)).map
            (fun p => (":" ++ p.1, p.2)) := by
      unfold UpsertableItem.into_attribute_values
      rw [List.filter_append, List.map_append]
    have e₂ : it₂.into_attribute_values
        = (it₂.default_attributes.filter (fun p => !it₂.is_primary_key p.1)).map
            (fun p => (":" ++ p.1, p.2))
          ++ (it₂.update_attributes.filter (fun p => !it₂.is_primary_key p.1)).map
            (fun p => (":" ++ p.1, p.2)) := by
      unfold UpsertableItem.into_attribute_values
      rw [List.filter_append, List.map_append]
    rw [e₁, e₂, ← hprim]
    refine hmLookup_append_congr (fun k' => ?_) (fun k' => ?_) k
    · exact hmLookup_eq_of_perm ((hd.filter _).map _) (nodup_value_keys hnd _) k'
    · exact hmLookup_eq_of_perm ((hu.filter _).map _) (nodup_value_keys hnu _) k'

/-- Witness for C5: the two bags of the reference unit test, presented in two
different orders, generate identical output (shown at the `defaultAndUpdate`
placeholders). -/
theorem upsert_builder_deterministic_witness :
    (UpsertableItem.mk "partitionKey" "sortKey"
        [("updateOnly", AttributeValue.S "update"), ("defaultAndUpdate", AttributeValue.S "update")]
        [("defaultOnly", AttributeValue.S "default"), ("defaultAndUpdate", AttributeValue.S "default")]).generate_update_expression
      = (UpsertableItem.mk "partitionKey" "sortKey"
        [("defaultAndUpdate", AttributeValue.S "update"), ("updateOnly", AttributeValue.S "update")]
        [("defaultAndUpdate", AttributeValue.S "default"), ("defaultOnly", AttributeValue.S "default")]).generate_update_expression
    ∧ hmLookup (UpsertableItem.mk "partitionKey" "sortKey"
        [("updateOnly", AttributeValue.S "update"), ("defaultAndUpdate", AttributeValue.S "update")]
        [("defaultOnly", AttributeValue.S "default"), ("defaultAndUpdate", AttributeValue.S "default")]).into_attribute_values ":defaultAndUpdate"
      = hmLookup (UpsertableItem.mk "partitionKey" "sortKey"
        [("defaultAndUpdate", AttributeValue.S "update"), ("updateOnly", AttributeValue.S "update")]
        [("defaultAndUpdate", AttributeValue.S "default"), ("defaultOnly", AttributeValue.S "default")]).into_attribute_values ":defaultAndUpdate" := by
  have h := upsert_builder_deterministic
    (UpsertableItem.mk "partitionKey" "sortKey"
      [("updateOnly", AttributeValue.S "update"), ("defaultAndUpdate", AttributeValue.S "update")]
      [("defaultOnly", AttributeValue.S "default"), ("defaultAndUpdate", AttributeValue.S "default")])
    (UpsertableItem.mk "partitionKey" "sortKey"
      [("defaultAndUpdate", AttributeValue.S "update"), ("updateOnly", AttributeValue.S "update")]
      [("defaultAndUpdate", AttributeValue.S "default"), ("defaultOnly", AttributeValue.S "default")])
    rfl rfl (by decide) (by decide) (by decide) (by decide)
  exact ⟨h.1, h.2.2 ":defaultAndUpdate"⟩

theorem mem_expressionList {it : UpsertableItem} {s : String} :
    s ∈ it.expressionList ↔
      (∃ k, k ∈ keysOf it.update_attributes ∧ it.is_primary_key k = false ∧ s = fmtSet k)
      ∨ (∃ k, k ∈ keysOf it.default_attributes ∧ it.is_primary_key k = false
          ∧ containsKey it.update_attributes k = false ∧ s = fmtSetIfNotExists k) := by
  simp only [UpsertableItem.expressionList, List.mem_append, List.mem_map, List.mem_filter,
    Bool.and_eq_true, Bool.not_eq_true']
  constructor
  · rintro (⟨k, ⟨hk, hp⟩, rfl⟩ | ⟨k, ⟨hk, hp, hc⟩, rfl⟩)
    · exact Or.inl ⟨k, hk, hp, rfl⟩
    · exact Or.inr ⟨k, hk, hp, hc, rfl⟩
  · rintro (⟨k, hk, hp, rfl⟩ | ⟨k, hk, hp, hc, rfl⟩)
    · exact Or.inl ⟨k, ⟨hk, hp⟩, rfl⟩
    · exact Or.inr ⟨k, ⟨hk, hp, hc⟩, rfl⟩

theorem hmLookup_names_primary_none {it : UpsertableItem} {k : String}
    (hp : it.is_primary_key k = true) :
    hmLookup it.generate_attribute_names ("#" ++ k) = none := by
  apply hmLookup_eq_none.mpr
  intro hmem
  unfold UpsertableItem.generate_attribute_names at hmem
  rw [keysOf_tag_map] at hmem
  rcases List.mem_map.mp hmem with ⟨k', hk', he⟩
  rcases List.mem_filter.mp hk' with ⟨_, hfp⟩
  rw [prefix_append_inj he, hp] at hfp
  cases hfp

theorem hmLookup_values_primary_none {it : UpsertableItem} {k : String}
    (hp : it.is_primary_key k = true) :
    hmLookup it.into_attribute_values (":" ++ k) = none := by
  apply hmLookup_eq_none.mpr
  intro hmem
  unfold UpsertableItem.into_attribute_values at hmem
  rw [keysOf_value_map] at hmem
  rcases List.mem_map.mp hmem with ⟨k', hk', he⟩
  rcases mem_keysOf.mp hk' with ⟨v, hv⟩
  rcases List.mem_filter.mp hv with ⟨_, hfp⟩
  simp only [Bool.not_eq_true'] at hfp
  rw [prefix_append_inj he, hp] at hfp
  cases hfp

theorem hmLookup_into_values_update {it : UpsertableItem} {k : String} {v : AttributeValue}
    (hnu : (keysOf it.update_attributes).Nodup)
    (hm : (k, v) ∈ it.update_attributes) (hp : it.is_primary_key k = false) :
    hmLookup it.into_attribute_values (":" ++ k) = some v := by
  have e : it.into_attribute_values
      = (it.default_attributes.filter (fun p => !it.is_primary_key p.1)).map
          (fun p => (":" ++ p.1, p.2))
        ++ (it.update_attributes.filter (fun p => !it.is_primary_key p.1)).map
          (fun p => (":" ++ p.1, p.2)) := by
    unfold UpsertableItem.into_attribute_values
    rw [List.filter_append, List.map_append]
  rw [e]
  apply hmLookup_append_some
  apply hmLookup_of_mem_nodup (nodup_value_keys hnu _)
  exact List.mem_map.mpr ⟨(k, v), List.mem_filter.mpr ⟨hm, by simp [hp]⟩, rfl⟩

/-! ### Claim C4 — content of the generated expression and placeholder maps -/

/-- C4: the assignment fragments of the generated update expression are exactly
an unconditional `#attr = :attr` for every non-key update attribute and a
set-if-absent `#attr = if_not_exists(#attr, :attr)` for every non-key default
attribute not covered by the update bag (so key attributes never appear); key
attributes are bound in neither the name map nor the value map; and an
attribute present in both bags binds its value placeholder to the
update bag's value. -/
theorem upsert_expression_contract (it : UpsertableItem)
    (hnu : (keysOf it.update_attributes).Nodup) :
    (∀ s, s ∈ it.expressionList ↔
      (∃ k, k ∈ keysOf it.update_attributes ∧ it.is_primary_key k = false ∧ s = fmtSet k)
      ∨ (∃ k, k ∈ keysOf it.default_attributes ∧ it.is_primary_key k = false
          ∧ containsKey it.update_attributes k = false ∧ s = fmtSetIfNotExists k))
    ∧ (∀ k, it.is_primary_key k = true →
        hmLookup it.generate_attribute_names ("#" ++ k) = none
        ∧ hmLookup it.into_attribute_values (":" ++ k) = none)
    ∧ (∀ k v, (k, v) ∈ it.update_attributes → containsKey it.default_attributes k = true →
        it.is_primary_key k = false →
        hmLookup it.into_attribute_values (":" ++ k) = some v) :=
  ⟨fun _ => mem_expressionList,
   fun _ hp => ⟨hmLookup_names_primary_none hp, hmLookup_values_primary_none hp⟩,
   fun _ _ hm _ hp => hmLookup_into_values_update hnu hm hp⟩

/-- Witness for C4, at the bags of the reference unit test: the unconditional
assignment for `updateOnly` is emitted, the partition key is absent from the
name map, and the shared attribute `defaultAndUpdate` binds to the update
value. -/
theorem upsert_expression_contract_witness :
    fmtSet "updateOnly" ∈ (UpsertableItem.mk "partitionKey" "sortKey"
        [("partitionKey", AttributeValue.S "p"), ("updateOnly", AttributeValue.S "update"),
         ("defaultAndUpdate", AttributeValue.S "update")]
        [("partitionKey", AttributeValue.S "p"), ("defaultOnly", AttributeValue.S "default"),
         ("defaultAndUpdate", AttributeValue.S "default")]).expressionList
    ∧ hmLookup (UpsertableItem.mk "partitionKey" "sortKey"
        [("partitionKey", AttributeValue.S "p"), ("updateOnly", AttributeValue.S "update"),
         ("defaultAndUpdate", AttributeValue.S "update")]
        [("partitionKey", AttributeValue.S "p"), ("defaultOnly", AttributeValue.S "default"),
         ("defaultAndUpdate", AttributeValue.S "default")]).generate_attribute_names
        ("#" ++ "partitionKey") = none
    ∧ hmLookup (UpsertableItem.mk "partitionKey" "sortKey"
        [("partitionKey", AttributeValue.S "p"), ("updateOnly", AttributeValue.S "update"),
         ("defaultAndUpdate", AttributeValue.S "update")]
        [("partitionKey", AttributeValue.S "p"), ("defaultOnly", AttributeValue.S "default"),
         ("defaultAndUpdate", AttributeValue.S "default")]).into_attribute_values
        (":" ++ "defaultAndUpdate") = some (AttributeValue.S "update") := by
  have h := upsert_expression_contract
    (UpsertableItem.mk "partitionKey" "sortKey"
        [("partitionKey", AttributeValue.S "p"), ("updateOnly", AttributeValue.S "update"),
         ("defaultAndUpdate", AttributeValue.S "update")]
        [("partitionKey", AttributeValue.S "p"), ("defaultOnly", AttributeValue.S "default"),
         ("defaultAndUpdate", AttributeValue.S "default")]) (by decide)
  refine ⟨(h.1 (fmtSet "updateOnly")).mpr (Or.inl ⟨"updateOnly", by decide, by decide, rfl⟩),
    (h.2.1 "partitionKey" (by decide)).1,
    h.2.2 "defaultAndUpdate" (AttributeValue.S "update") (by decide) (by decide) (by decide)⟩

theorem toItem_update_keys_nodup (u : CallLinkUpdate) : (keysOf u.toItem).Nodup := by
  rcases u with ⟨a, r, e, v⟩
  cases r <;> cases e <;> cases v <;> simp [CallLinkUpdate.toItem, keysOf]

theorem toItem_state_keys_nodup (s : CallLinkState) : (keysOf s.toItem).Nodup := by
  simp [CallLinkState.toItem, keysOf]

theorem adminPasskey_mem_toItem (u : CallLinkUpdate) :
    ("adminPasskey", AttributeValue.B u.admin_passkey) ∈ u.toItem := by
  rcases u with ⟨a, r, e, v⟩
  simp [CallLinkUpdate.toItem]

theorem zkparams_not_mem_update_keys (u : CallLinkUpdate) : "zkparams" ∉ keysOf u.toItem := by
  rcases u with ⟨a, r, e, v⟩
  cases r <;> cases e <;> cases v <;> simp [CallLinkUpdate.toItem, keysOf]

theorem build_update_attributes (room_id : String) (u : CallLinkUpdate)
    (zkc : Option (List Nat)) (now : Int) :
    (buildUpsertItem room_id u zkc now).update_attributes = u.toItem := by
  cases zkc <;> rfl

theorem build_primary_adminPasskey (room_id : String) (u : CallLinkUpdate)
    (zkc : Option (List Nat)) (now : Int) :
    (buildUpsertItem room_id u zkc now).is_primary_key "adminPasskey" = false := by
  cases zkc <;> rfl

theorem build_values_adminPasskey (room_id : String) (u : CallLinkUpdate)
    (zkc : Option (List Nat)) (now : Int) :
    hmLookup (buildUpsertItem room_id u zkc now).into_attribute_values ":adminPasskey"
      = some (AttributeValue.B u.admin_passkey) := by
  have hm : ("adminPasskey", AttributeValue.B u.admin_passkey)
      ∈ (buildUpsertItem room_id u zkc now).update_attributes := by
    rw [build_update_attributes]
    exact adminPasskey_mem_toItem u
  have hnu : (keysOf (buildUpsertItem room_id u zkc now).update_attributes).Nodup := by
    rw [build_update_attributes]
    exact toItem_update_keys_nodup u
  exact hmLookup_into_values_update hnu hm (build_primary_adminPasskey room_id u zkc now)

theorem build_values_zkparams (room_id : String) (u : CallLinkUpdate) (zk : List Nat)
    (now : Int) :
    hmLookup (buildUpsertItem room_id u (some zk) now).into_attribute_values ":zkparams"
      = some (AttributeValue.B zk) := by
  have e : (buildUpsertItem room_id u (some zk) now).into_attribute_values
      = ((CallLinkState.new room_id u.admin_passkey zk now).toItem.filter
            (fun p => !(buildUpsertItem room_id u (some zk) now).is_primary_key p.1)).map
          (fun p => (":" ++ p.1, p.2))
        ++ (u.toItem.filter
            (fun p => !(buildUpsertItem room_id u (some zk) now).is_primary_key p.1)).map
          (fun p => (":" ++ p.1, p.2)) := by
    unfold UpsertableItem.into_attribute_values
    rw [List.filter_append, List.map_append]
    rfl
  rw [e]
  have hU : hmLookup ((u.toItem.filter
      (fun p => !(buildUpsertItem room_id u (some zk) now).is_primary_key p.1)).map
        (fun p => (":" ++ p.1, p.2))) ":zkparams" = none := by
    apply hmLookup_eq_none.mpr
    intro hmem
    rw [keysOf_value_map] at hmem
    rcases List.mem_map.mp hmem with ⟨k', hk', he⟩
    have hk'' : k' ∈ keysOf u.toItem := by
      rcases mem_keysOf.mp hk' with ⟨v, hv⟩
      exact mem_keysOf.mpr ⟨v, (List.mem_filter.mp hv).1⟩
    rw [show k' = "zkparams" from prefix_append_inj he] at hk''
    exact zkparams_not_mem_update_keys u hk''
  rw [hmLookup_append_none hU]
  apply hmLookup_of_mem_nodup
  · exact nodup_value_keys (toItem_state_keys_nodup _) _
  · refine List.mem_map.mpr ⟨("zkparams", AttributeValue.B zk), List.mem_filter.mpr ⟨?_, ?_⟩, rfl⟩
    · simp [CallLinkState.toItem, CallLinkState.new]
    · rfl

theorem evalCond_condAnd_iff {stored : Option Item} {values : List (String × AttributeValue)}
    {c₁ c₂ : Cond} :
    evalCond stored values (Cond.condAnd c₁ c₂) = true
      ↔ evalCond stored values c₁ = true ∧ evalCond stored values c₂ = true := by
  simp [evalCond, Bool.and_eq_true]

theorem evalCond_condOr_iff {stored : Option Item} {values : List (String × AttributeValue)}
    {c₁ c₂ : Cond} :
    evalCond stored values (Cond.condOr c₁ c₂) = true
      ↔ evalCond stored values c₁ = true ∨ evalCond stored values c₂ = true := by
  simp [evalCond, Bool.or_eq_true]

theorem evalCond_eqAttr_iff {stored : Option Item} {values : List (String × AttributeValue)}
    {a ph : String} {w : AttributeValue} (hw : hmLookup values ph = some w) :
    evalCond stored values (Cond.eqAttr a ph) = true
      ↔ stored.bind (lookupKV a) = some w := by
  cases stored with
  | none => simp [evalCond]
  | some item =>
    cases h : lookupKV a item with
    | none => simp [evalCond, hw, h]
    | some v => simp [evalCond, hw, h]

theorem evalCond_notExists_iff {stored : Option Item} {values : List (String × AttributeValue)}
    {a : String} :
    evalCond stored values (Cond.attributeNotExists a) = true
      ↔ stored.bind (lookupKV a) = none := by
  cases stored with
  | none => simp [evalCond]
  | some item => simp [evalCond, Option.isNone_iff_eq_none]

/-! ### Claim C1 — creation mode: condition shape and failure classification -/

/-- C1: in creation mode (`zkparams_for_creation = Some(p)`) the conditional
write's condition evaluates to true exactly when (the stored `adminPasskey`
equals the update's admin passkey, or that attribute is absent) and (the
stored `zkparams` equals `p`, or that attribute is absent); and whenever the
condition fails, `update_call_link` returns `AdminPasskeyDidNotMatch` —
whatever the disambiguating read would have answered — and in particular
never `RoomDoesNotExist`. -/
theorem creation_mode_condition_and_classification
    (room_id : String) (u : CallLinkUpdate) (zk : List Nat) (now : Int)
    (stored : Option Item) (readAfterFailure : Except Unit (Option CallLinkState)) :
    (evalCond stored (buildUpsertItem room_id u (some zk) now).into_attribute_values
        creationCondition = true
      ↔ ((stored.bind (lookupKV "adminPasskey") = some (AttributeValue.B u.admin_passkey)
            ∨ stored.bind (lookupKV "adminPasskey") = none)
          ∧ (stored.bind (lookupKV "zkparams") = some (AttributeValue.B zk)
            ∨ stored.bind (lookupKV "zkparams") = none)))
    ∧ (evalCond stored (buildUpsertItem room_id u (some zk) now).into_attribute_values
          creationCondition = false →
        update_call_link room_id u (some zk) now stored readAfterFailure
          = Except.error CallLinkUpdateError.AdminPasskeyDidNotMatch) := by
  constructor
  · unfold creationCondition
    rw [evalCond_condAnd_iff, evalCond_condOr_iff, evalCond_condOr_iff,
      evalCond_eqAttr_iff (build_values_adminPasskey room_id u (some zk) now),
      evalCond_eqAttr_iff (build_values_zkparams room_id u zk now),
      evalCond_notExists_iff, evalCond_notExists_iff]
  · intro h
    simp [update_call_link, conditionFor, dynamoUpdateItem, h]

/-- Witness for C1: a creation-mode call against a room stored with a
different admin passkey fails closed with `AdminPasskeyDidNotMatch`. -/
theorem creation_mode_condition_witness :
    update_call_link "ff" (CallLinkUpdate.mk [1] none none none) (some [2]) 0
        (some [("adminPasskey", AttributeValue.B [9])]) (Except.ok none)
      = Except.error CallLinkUpdateError.AdminPasskeyDidNotMatch :=
  (creation_mode_condition_and_classification "ff" (CallLinkUpdate.mk [1] none none none)
      [2] 0 (some [("adminPasskey", AttributeValue.B [9])]) (Except.ok none)).2 rfl

/-! ### Claim C2 — update mode: exact-match condition and read-disambiguation -/

/-- C2: in update mode (`zkparams_for_creation = None`) the conditional
write's condition is an exact stored-`adminPasskey` equality with no absence
escape (an absent room always fails it), and on a condition failure the
operation is classified by the one plain consistent read: a record means
`AdminPasskeyDidNotMatch`, nothing means `RoomDoesNotExist`, a read fault
means `UnexpectedError`. -/
theorem update_mode_condition_and_classification
    (room_id : String) (u : CallLinkUpdate) (now : Int)
    (stored : Option Item) (readAfterFailure : Except Unit (Option CallLinkState)) :
    (evalCond stored (buildUpsertItem room_id u none now).into_attribute_values
        updateModeCondition = true
      ↔ stored.bind (lookupKV "adminPasskey") = some (AttributeValue.B u.admin_passkey))
    ∧ (evalCond stored (buildUpsertItem room_id u none now).into_attribute_values
          updateModeCondition = false →
        update_call_link room_id u none now stored readAfterFailure
          = Except.error (match readAfterFailure with
              | Except.ok (some _) => CallLinkUpdateError.AdminPasskeyDidNotMatch
              | Except.ok none => CallLinkUpdateError.RoomDoesNotExist
              | Except.error _ => CallLinkUpdateError.UnexpectedError)) := by
  constructor
  · exact evalCond_eqAttr_iff (build_values_adminPasskey room_id u none now)
  · intro h
    cases readAfterFailure with
    | error e => simp [update_call_link, conditionFor, dynamoUpdateItem, h]
    | ok o => cases o <;> simp [update_call_link, conditionFor, dynamoUpdateItem, h]

/-- Witness for C2: an update-mode call against an absent room whose
disambiguating read also sees nothing returns `RoomDoesNotExist`. -/
theorem update_mode_condition_witness :
    update_call_link "ff" (CallLinkUpdate.mk [1] none none none) none 0 none (Except.ok none)
      = Except.error CallLinkUpdateError.RoomDoesNotExist :=
  (update_mode_condition_and_classification "ff" (CallLinkUpdate.mk [1] none none none)
      0 none (Except.ok none)).2 rfl

/-! ### Claim C3 — creation mode: the default attribute bag -/

/-- C3: the creation-mode default bag is the serialized complete fresh
`CallLinkState` — room id `r`, the update's admin passkey, `p` as zkparams, no
restrictions, empty encrypted name, not revoked, expiring 90 days after `now`
— while the fields of the incoming update form the update bag, whose values
win the value-placeholder bindings. -/
theorem creation_mode_defaults (room_id : String) (u : CallLinkUpdate) (zk : List Nat)
    (now : Int) :
    (buildUpsertItem room_id u (some zk) now).default_attributes
      = (CallLinkState.new room_id u.admin_passkey zk now).toItem
    ∧ CallLinkState.new room_id u.admin_passkey zk now
      = { room_id := room_id, admin_passkey := u.admin_passkey, zkparams := zk,
          restrictions := CallLinkRestrictions.None, encrypted_name := [], revoked := false,
          expiration := now + 60 * 60 * 24 * 90 }
    ∧ (buildUpsertItem room_id u (some zk) now).update_attributes = u.toItem
    ∧ (∀ k v, (k, v) ∈ u.toItem →
        (buildUpsertItem room_id u (some zk) now).is_primary_key k = false →
        hmLookup (buildUpsertItem room_id u (some zk) now).into_attribute_values (":" ++ k)
          = some v) := by
  refine ⟨rfl, rfl, rfl, fun k v hm hp => ?_⟩
  have hnu : (keysOf (buildUpsertItem room_id u (some zk) now).update_attributes).Nodup := by
    rw [build_update_attributes]
    exact toItem_update_keys_nodup u
  exact hmLookup_into_values_update hnu
    (by rw [build_update_attributes]; exact hm) hp

/-- Witness for C3: a creation-mode call carrying `revoked = true` binds the
`:revoked` placeholder to the update's value, overriding the fresh default. -/
theorem creation_mode_defaults_witness :
    (buildUpsertItem "ff" (CallLinkUpdate.mk [1] none none (some true)) (some [2])
        100).default_attributes = (CallLinkState.new "ff" [1] [2] 100).toItem
    ∧ hmLookup (buildUpsertItem "ff" (CallLinkUpdate.mk [1] none none (some true)) (some [2])
        100).into_attribute_values (":" ++ "revoked") = some (AttributeValue.BOOL true) := by
  have h := creation_mode_defaults "ff" (CallLinkUpdate.mk [1] none none (some true)) [2] 100
  exact ⟨h.1, h.2.2.2 "revoked" (AttributeValue.BOOL true) (by decide) rfl⟩

theorem olast_cons {α : Type} : ∀ (xs : List α) (x : α) (d : Option α),
    olast (x :: xs) d = olast xs (some x)
  | [], _, _ => rfl
  | y :: ys, x, d => by
    unfold olast
    rw [List.getLast?_cons_cons]
    cases h : (y :: ys).getLast? with
    | some v => rfl
    | none => exact absurd (List.getLast?_eq_none_iff.mp h) (by simp)

theorem demuxRows_good : ∀ (items : List Item) (ls : Option CallLinkState)
    (cr : Option CallRecord) (logs : List String),
    (∀ item ∈ items, goodRow item) →
    demuxRows items ls cr logs
      = Except.ok ((olast (items.filterMap linkRowOf) ls, olast (items.filterMap recRowOf) cr),
          logs ++ items.filterMap logOf)
  | [], ls, cr, logs, _ => by simp [demuxRows, olast]
  | item :: rest, ls, cr, logs, hgood => by
    have hitem := hgood item (List.mem_cons_self _ _)
    have hrest : ∀ i ∈ rest, goodRow i := fun i hi => hgood i (List.mem_cons_of_mem _ hi)
    cases hd : recordDisc item with
    | none =>
      simp only [demuxRows, hd]
      rw [demuxRows_good rest ls cr logs hrest]
      simp [List.filterMap_cons, linkRowOf, recRowOf, logOf, hd]
    | some s =>
      by_cases h1 : s = "ActiveCall"
      · subst h1
        rcases Option.isSome_iff_exists.mp (hitem.2 hd) with ⟨rec, hrec⟩
        simp only [demuxRows, hd, hrec, if_pos rfl]
        rw [demuxRows_good rest ls (some rec) logs hrest]
        simp [List.filterMap_cons, linkRowOf, recRowOf, logOf, hd, hrec, olast_cons]
      · by_cases h2 : s = "CallLinkState"
        · subst h2
          rcases Option.isSome_iff_exists.mp (hitem.1 hd) with ⟨st, hst⟩
          simp only [demuxRows, hd, hst, if_neg h1, if_pos rfl]
          rw [demuxRows_good rest (some st) cr logs hrest]
          simp [List.filterMap_cons, linkRowOf, recRowOf, logOf, hd, hst, olast_cons]
        · simp only [demuxRows, hd, if_neg h1, if_neg h2]
          rw [demuxRows_good rest ls cr (logs ++ ["unexpected record_type: " ++ s]) hrest]
          simp [List.filterMap_cons, linkRowOf, recRowOf, logOf, hd, h1, h2]

theorem demuxRows_error : ∀ (items : List Item) (ls : Option CallLinkState)
    (cr : Option CallRecord) (logs : List String),
    (∃ item ∈ items, ¬ goodRow item) →
    ∃ msg, demuxRows items ls cr logs = Except.error msg
  | [], _, _, _, h => by
    rcases h with ⟨i, hi, _⟩
    cases hi
  | item :: rest, ls, cr, logs, h => by
    by_cases hg : goodRow item
    · have hrest : ∃ i ∈ rest, ¬ goodRow i := by
        rcases h with ⟨i, hi, hbad⟩
        rcases List.mem_cons.mp hi with rfl | hi'
        · exact absurd hg hbad
        · exact ⟨i, hi', hbad⟩
      cases hd : recordDisc item with
      | none =>
        simp only [demuxRows, hd]
        exact demuxRows_error rest ls cr logs hrest
      | some s =>
        by_cases h1 : s = "ActiveCall"
        · subst h1
          rcases Option.isSome_iff_exists.mp (hg.2 hd) with ⟨rec, hrec⟩
          simp only [demuxRows, hd, hrec, if_pos rfl]
          exact demuxRows_error rest ls (some rec) logs hrest
        · by_cases h2 : s = "CallLinkState"
          · subst h2
            rcases Option.isSome_iff_exists.mp (hg.1 hd) with ⟨st, hst⟩
            simp only [demuxRows, hd, hst, if_neg h1, if_pos rfl]
            exact demuxRows_error rest (some st) cr logs hrest
          · simp only [demuxRows, hd, if_neg h1, if_neg h2]
            exact demuxRows_error rest ls cr (logs ++ ["unexpected record_type: " ++ s]) hrest
    · cases hd : recordDisc item with
      | none =>
        refine absurd ⟨fun hc => ?_, fun hc => ?_⟩ hg <;>
          exact absurd (hd.symm.trans hc) (by simp)
      | some s =>
        by_cases h1 : s = "ActiveCall"
        · subst h1
          cases hrec : fromItemCallRecord item with
          | some rec =>
            refine absurd ⟨fun hc => absurd (hd.symm.trans hc) (by simp), fun _ => ?_⟩ hg
            simp [hrec]
          | none =>
            refine ⟨"failed to convert item to CallRecord", ?_⟩
            simp [demuxRows, hd, hrec]
        · by_cases h2 : s = "CallLinkState"
          · subst h2
            cases hst : fromItemCallLinkState item with
            | some st =>
              refine absurd ⟨fun _ => ?_, fun hc => absurd (hd.symm.trans hc) (by simp)⟩ hg
              simp [hst]
            | none =>
              refine ⟨"failed to convert item to CallLinkState", ?_⟩
              simp [demuxRows, hd, hst, h1]
          · refine absurd ⟨fun hc => ?_, fun hc => ?_⟩ hg <;>
              · have := hd.symm.trans hc
                simp_all

/-! ### Claim C7 — demultiplexing of the combined read -/

/-- C7: when every matched row deserializes, the combined read returns the
last `CallLinkState`-tagged row in the link slot and the last
`ActiveCall`-tagged row in the record slot (each slot defaulting to absent),
logging exactly the unrecognized string discriminants; and a deserialization
failure of any matched row makes the whole call return an error instead of
treating the row as absent. -/
theorem combined_read_demux (items : List Item) :
    ((∀ item ∈ items, goodRow item) →
      get_call_link_and_record items
        = Except.ok
            ((olast (items.filterMap linkRowOf) none, olast (items.filterMap recRowOf) none),
              items.filterMap logOf))
    ∧ ((∃ item ∈ items, ¬ goodRow item) →
        ∃ msg, get_call_link_and_record items = Except.error msg) := by
  constructor
  · intro h
    unfold get_call_link_and_record
    rw [demuxRows_good items none none [] h]
    simp
  · intro h
    exact demuxRows_error items none none [] h

/-- Witness for C7: an unrecognized discriminant is only logged, and a corrupt
matched row fails the whole call. -/
theorem combined_read_demux_witness :
    get_call_link_and_record [[("recordType", AttributeValue.S "Mystery")]]
      = Except.ok ((none, none), ["unexpected record_type: Mystery"])
    ∧ ∃ msg, get_call_link_and_record [[("recordType", AttributeValue.S "CallLinkState")]]
        = Except.error msg := by
  constructor
  · exact ((combined_read_demux [[("recordType", AttributeValue.S "Mystery")]]).1
      (by decide)).trans rfl
  · exact (combined_read_demux [[("recordType", AttributeValue.S "CallLinkState")]]).2
      ⟨[("recordType", AttributeValue.S "CallLinkState")], by simp, by decide⟩

/-! ### Claim C10 — rows without a string discriminant are silently skipped -/

theorem demuxRows_skip (item : Item) (h : recordDisc item = none) :
    ∀ (pre post : List Item) (ls : Option CallLinkState) (cr : Option CallRecord)
      (logs : List String),
    demuxRows (pre ++ item :: post) ls cr logs = demuxRows (pre ++ post) ls cr logs
  | [], post, ls, cr, logs => by simp only [List.nil_append, demuxRows, h]
  | p :: pre, post, ls, cr, logs => by
    cases hd : recordDisc p with
    | none =>
      simp only [List.cons_append, demuxRows, hd]
      exact demuxRows_skip item h pre post ls cr logs
    | some s =>
      by_cases h1 : s = "ActiveCall"
      · subst h1
        cases hrec : fromItemCallRecord p with
        | some rec =>
          simp only [List.cons_append, demuxRows, hd, hrec, if_pos rfl]
          exact demuxRows_skip item h pre post ls (some rec) logs
        | none => simp [demuxRows, hd, hrec]
      · by_cases h2 : s = "CallLinkState"
        · subst h2
          cases hst : fromItemCallLinkState p with
          | some st =>
            simp only [List.cons_append, demuxRows, hd, hst, if_neg h1, if_pos rfl]
            exact demuxRows_skip item h pre post (some st) cr logs
          | none => simp [demuxRows, hd, hst, h1]
        · simp only [List.cons_append, demuxRows, hd, if_neg h1, if_neg h2]
          exact demuxRows_skip item h pre post ls cr
            (logs ++ ["unexpected record_type: " ++ s])

/-- C10: a returned row whose `recordType` attribute is missing, or present
with a non-string value, contributes nothing: removing it from the query
result changes neither the result slots, nor the error behaviour, nor the
log. Only rows with a string discriminant take part in the demultiplexing. -/
theorem combined_read_skips_untagged (pre post : List Item) (item : Item)
    (h : recordDisc item = none) :
    get_call_link_and_record (pre ++ item :: post) = get_call_link_and_record (pre ++ post) := by
  unfold get_call_link_and_record
  exact demuxRows_skip item h pre post none none []

/-- Witness for C10: a row whose discriminant is a number is skipped outright. -/
theorem combined_read_skips_untagged_witness :
    get_call_link_and_record [[("recordType", AttributeValue.N 3)]]
      = get_call_link_and_record [] :=
  combined_read_skips_untagged [] [] [("recordType", AttributeValue.N 3)] rfl

/-! ### Claim C9 — read handler: existence is checked before credentials -/

/-- C9: when the room does not exist, `read_call_link` terminates with
`NOT_FOUND` before any credential verification is attempted (no verification
effect for any oracle outcome); when the room exists, the outcome is never
`NOT_FOUND` — so existence is observable even to a caller whose credential
would not verify. -/
theorem read_call_link_existence_first (room_id : String)
    (storedZkDeserOk : List Nat → Bool) (authCredOk : List Nat → Bool)
    (getLinkResult : Except Unit (Option CallLinkState)) :
    (getLinkResult = Except.ok none →
      (read_call_link room_id storedZkDeserOk authCredOk getLinkResult).1
          = Except.error NOT_FOUND
        ∧ ∀ zk, Effect.verifyAuthCredential zk
            ∉ (read_call_link room_id storedZkDeserOk authCredOk getLinkResult).2)
    ∧ (∀ state, getLinkResult = Except.ok (some state) →
        (read_call_link room_id storedZkDeserOk authCredOk getLinkResult).1
          ≠ Except.error NOT_FOUND) := by
  constructor
  · rintro rfl
    refine ⟨rfl, fun zk hmem => ?_⟩
    simp [read_call_link] at hmem
  · rintro state rfl
    unfold read_call_link
    by_cases h1 : storedZkDeserOk state.zkparams
    · by_cases h2 : authCredOk state.zkparams
      · simp [h1, h2]
      · simp [h1, h2, FORBIDDEN, NOT_FOUND]
    · simp [h1, INTERNAL_SERVER_ERROR, NOT_FOUND]

/-- Witness for C9: an absent room yields 404 with no verification effect,
even though the supplied credential oracle rejects everything. -/
theorem read_call_link_existence_first_witness :
    (read_call_link "ff" (fun _ => true) (fun _ => false) (Except.ok none)).1
      = Except.error NOT_FOUND
    ∧ Effect.verifyAuthCredential [1]
        ∉ (read_call_link "ff" (fun _ => true) (fun _ => false) (Except.ok none)).2 := by
  have h := (read_call_link_existence_first "ff" (fun _ => true) (fun _ => false)
      (Except.ok none)).1 rfl
  exact ⟨h.1, h.2 [1]⟩

/-! ### Claim C8 — update handler, anonymous path: stored params only -/

/-- C8: on the anonymous-credential (update) path, every credential
verification the handler performs is against the zkparams of the fetched
stored `CallLinkState`; a payload carrying zkparams on this path is rejected
with an error before any storage write; and a nonexistent room is rejected
with an error before the conditional write is reached. -/
theorem update_call_link_auth_path (room_id : String) (update : ApiCallLinkUpdate)
    (zkCreateDeserOk : List Nat → Bool) (createCredOk : List Nat → List Nat → Bool)
    (storedZkDeserOk : List Nat → Bool) (authCredOk : List Nat → Bool)
    (getLinkResult : Except Unit (Option CallLinkState))
    (storageResult : Except CallLinkUpdateError CallLinkState) :
    (∀ zk, Effect.verifyAuthCredential zk
        ∈ (api_update_call_link room_id false true update zkCreateDeserOk createCredOk
            storedZkDeserOk authCredOk getLinkResult storageResult).2 →
      ∃ state, getLinkResult = Except.ok (some state) ∧ zk = state.zkparams)
    ∧ (update.zkparams.isSome = true →
        (∃ c, (api_update_call_link room_id false true update zkCreateDeserOk createCredOk
            storedZkDeserOk authCredOk getLinkResult storageResult).1 = Except.error c)
        ∧ ∀ r u z, Effect.storageUpdateCallLink r u z
            ∉ (api_update_call_link room_id false true update zkCreateDeserOk createCredOk
                storedZkDeserOk authCredOk getLinkResult storageResult).2)
    ∧ (getLinkResult = Except.ok none →
        (∃ c, (api_update_call_link room_id false true update zkCreateDeserOk createCredOk
            storedZkDeserOk authCredOk getLinkResult storageResult).1 = Except.error c)
        ∧ ∀ r u z, Effect.storageUpdateCallLink r u z
            ∉ (api_update_call_link room_id false true update zkCreateDeserOk createCredOk
                storedZkDeserOk authCredOk getLinkResult storageResult).2) := by
  refine ⟨?_, ?_, ?_⟩
  · intro zk hmem
    unfold api_update_call_link at hmem
    cases hhex : hexDecode room_id with
    | none =>
      simp [hhex] at hmem
    | some rb =>
      simp only [hhex] at hmem
      by_cases h1 : update.admin_passkey.length > 256
      · simp [h1] at hmem
      · simp only [if_neg h1] at hmem
        by_cases h2 : (match update.name with
            | some new_name => decide (new_name.length > 256 + 32)
            | none => false) = true
        · simp [h2] at hmem
        · simp only [if_neg h2, Bool.false_eq_true, if_false, if_true] at hmem
          by_cases h3 : update.zkparams.isSome = true
          · simp [h3] at hmem
          · simp only [if_neg h3] at hmem
            cases hget : getLinkResult with
            | error e => simp [hget] at hmem
            | ok o =>
              cases o with
              | none => simp [hget] at hmem
              | some state =>
                simp only [hget] at hmem
                by_cases h4 : storedZkDeserOk state.zkparams
                · by_cases h5 : authCredOk state.zkparams
                  · simp [h4, h5] at hmem
                    exact ⟨state, rfl, hmem⟩
                  · simp [h4, h5] at hmem
                    exact ⟨state, rfl, hmem⟩
                · simp [h4] at hmem
  · intro h3
    cases hhex : hexDecode room_id with
    | none =>
      refine ⟨⟨BAD_REQUEST, ?_⟩, fun r u z hmem => ?_⟩ <;>
        simp [api_update_call_link, hhex] at *
    | some rb =>
      by_cases h1 : update.admin_passkey.length > 256
      · refine ⟨⟨PAYLOAD_TOO_LARGE, ?_⟩, fun r u z hmem => ?_⟩ <;>
          simp [api_update_call_link, hhex, h1] at *
      · by_cases h2 : (match update.name with
            | some new_name => decide (new_name.length > 256 + 32)
            | none => false) = true
        · refine ⟨⟨PAYLOAD_TOO_LARGE, ?_⟩, fun r u z hmem => ?_⟩ <;>
            simp [api_update_call_link, hhex, h1, h2] at *
        · refine ⟨⟨BAD_REQUEST, ?_⟩, fun r u z hmem => ?_⟩ <;>
            simp [api_update_call_link, hhex, h1, h2, h3] at *
  · intro hget
    subst hget
    cases hhex : hexDecode room_id with
    | none =>
      refine ⟨⟨BAD_REQUEST, ?_⟩, fun r u z hmem => ?_⟩ <;>
        simp [api_update_call_link, hhex] at *
    | some rb =>
      by_cases h1 : update.admin_passkey.length > 256
      · refine ⟨⟨PAYLOAD_TOO_LARGE, ?_⟩, fun r u z hmem => ?_⟩ <;>
          simp [api_update_call_link, hhex, h1] at *
      · by_cases h2 : (match update.name with
            | some new_name => decide (new_name.length > 256 + 32)
            | none => false) = true
        · refine ⟨⟨PAYLOAD_TOO_LARGE, ?_⟩, fun r u z hmem => ?_⟩ <;>
            simp [api_update_call_link, hhex, h1, h2] at *
        · by_cases h3 : update.zkparams.isSome = true
          · refine ⟨⟨BAD_REQUEST, ?_⟩, fun r u z hmem => ?_⟩ <;>
              simp [api_update_call_link, hhex, h1, h2, h3] at *
          · refine ⟨⟨UNAUTHORIZED, ?_⟩, fun r u z hmem => ?_⟩ <;>
              simp [api_update_call_link, hhex, h1, h2, h3] at *

/-- Witness for C8: a payload carrying zkparams on the anonymous path is
rejected and the storage layer is never invoked. -/
theorem update_call_link_auth_path_witness :
    (∃ c, (api_update_call_link "ff" false true
        (ApiCallLinkUpdate.mk [1] (some [2]) none none none)
        (fun _ => true) (fun _ _ => true) (fun _ => true) (fun _ => true)
        (Except.ok none) (Except.error CallLinkUpdateError.UnexpectedError)).1
          = Except.error c)
    ∧ Effect.storageUpdateCallLink "ff" (CallLinkUpdate.mk [1] none none none) none
        ∉ (api_update_call_link "ff" false true
            (ApiCallLinkUpdate.mk [1] (some [2]) none none none)
            (fun _ => true) (fun _ _ => true) (fun _ => true) (fun _ => true)
            (Except.ok none) (Except.error CallLinkUpdateError.UnexpectedError)).2 := by
  have h := (update_call_link_auth_path "ff"
      (ApiCallLinkUpdate.mk [1] (some [2]) none none none)
      (fun _ => true) (fun _ _ => true) (fun _ => true) (fun _ => true)
      (Except.ok none) (Except.error CallLinkUpdateError.UnexpectedError)).2.1 rfl
  exact ⟨h.1, h.2 "ff" (CallLinkUpdate.mk [1] none none none) none⟩
